import Mathlib

/-!
# Shallow embedding of the flock-in x402 payment client

This file embeds, in Lean 4, the parts of the `flock-in` TypeScript
repository that its specification makes checkable claims about:

* the x402 payment negotiator (`src/x402-client.ts`, class `X402Client`,
  methods `makeRequest`, `parsePaymentRequirement`,
  `createPaymentSignature`);
* the payment ledger (`src/payment-tracker.ts`: `saveHistory`,
  `recordPayment`, `getPaymentHistory`, `getPaymentSummary`);
* the multi-chain balance checker and funding monitor (`src/balance.ts`:
  `checkSingleChain`, `checkBalance`, `waitForFunding`);
* the USDC balance checker and funding monitor (`src/usdc-balance.ts`:
  `checkUSDCBalance`, `waitForUSDCFunding`).

Modelling conventions:

* Decimal string amounts (`maxAmountRequired`, record `amount`) are
  modelled by their numeric value in `ℚ`; `parseFloat(s) / 1e6` becomes
  division by `1000000` in `ℚ`.
* Opaque serialization (base64 + JSON) is modelled by its outcome: a
  header is absent, present but undecodable, or decodes to a value.
* `Date.now()` / wall-clock time is an explicit parameter: loops take the
  start time and the duration of each network call, and unbounded `while`
  loops take a fuel argument (running out of fuel is a distinguished
  outcome that the theorems show never happens with enough fuel).
* External collaborators (`ethers.formatEther`, the RPC balance sources,
  the signing wallet) are parameters: the outcome of a balance query is either
  a balance or an error, and formatting/signing are function arguments.
-/

namespace FlockIn

/-! ## Data model: payment negotiation (src/x402-client.ts) -/

/-- Network tag of `X402ClientConfig.network` (`base` or `base-sepolia`). -/
inductive Network where
  | base
  | baseSepolia
deriving DecidableEq, Repr

/-- The `X402ClientConfig` after the constructor fills the defaults
(network `base`, cap 0.10).  The private key is held by
the wallet collaborator and does not appear here; the wallet address
is the `payer` string used when building payment payloads. -/
structure X402ClientConfig where
  network : Network
  maxPaymentUsd : ℚ
  apiBaseUrl : String
  walletAddress : String
deriving DecidableEq, Repr

/-- The `PaymentRequirement` parsed from the `X-PAYMENT-REQUIRED` header.
`maxAmountRequired` is a decimal string in the source; it is modelled by
its parsed numeric value. -/
structure PaymentRequirement where
  scheme : String
  network : String
  maxAmountRequired : ℚ
  resource : String
  payTo : String
  requiredDecimals : Nat
deriving DecidableEq, Repr

/-- Outcome of decoding a present `X-PAYMENT-REQUIRED` header value
(`atob` + `JSON.parse`): either the decode/parse fails, or it yields a
`PaymentRequirement`. -/
inductive HeaderVal where
  | malformed
  | wellFormed (req : PaymentRequirement)
deriving DecidableEq, Repr

/-- Payment proof data decoded from an `X-PAYMENT-RESPONSE` header. -/
structure PaymentProofData where
  transactionHash : String
  amount : String
deriving DecidableEq, Repr

/-- One HTTP response as the client observes it: status code, the
`X-PAYMENT-REQUIRED` header (absent, or present with a decode outcome),
the `X-PAYMENT-RESPONSE` header (absent, or present with a decode
outcome — `none` inside means the decode fails), and the body. -/
structure ServerResponse where
  status : Nat
  paymentRequired : Option HeaderVal
  paymentResponse : Option (Option PaymentProofData)
  body : String
deriving DecidableEq, Repr

/-- The `response.ok` of the fetch API: status in `[200, 300)`. -/
def responseOk (r : ServerResponse) : Bool :=
  200 ≤ r.status && r.status < 300

/-- The distinct failure kinds `makeRequest` can raise (each is a
`throw new Error(...)` with a distinct message in the source). -/
inductive X402Error where
  | paymentRetriesExhausted
  | missingPaymentHeader
  | invalidPaymentHeader
  | paymentLimitExceeded (amountUsd maxPaymentUsd : ℚ)
  | apiError (status : Nat) (body : String)
  | noResponse
deriving DecidableEq, Repr

/-- The message string of each error, as thrown by the source. -/
def X402Error.message : X402Error → String
  | .paymentRetriesExhausted => "Payment failed after 3 attempts"
  | .missingPaymentHeader => "402 response missing X-PAYMENT-REQUIRED header"
  | .invalidPaymentHeader => "Invalid payment requirement header"
  | .paymentLimitExceeded a m =>
      "Payment amount $" ++ toString a ++ " exceeds max $" ++ toString m
  | .apiError s body => "API error " ++ toString s ++ ": " ++ body
  | .noResponse => "no response"

/-- The `parsePaymentRequirement` (src/x402-client.ts lines 238-245): `atob`
then `JSON.parse`, any failure is caught and rethrown as the invalid
header error. -/
def parsePaymentRequirement : HeaderVal → Except X402Error PaymentRequirement
  | .malformed => .error .invalidPaymentHeader
  | .wellFormed req => .ok req

/-- The EIP-3009 payment payload built by `createPaymentSignature`
(src/x402-client.ts lines 250-280).  `validAfter`/`validBefore` are unix
seconds (stringified in the source; kept as integers here). -/
structure PaymentPayload where
  scheme : String
  network : String
  amount : ℚ
  resource : String
  payTo : String
  payer : String
  validAfter : ℤ
  validBefore : ℤ
  nonce : String
deriving DecidableEq, Repr

/-- The `createPaymentSignature` (src/x402-client.ts lines 250-280), up to
the signing step: builds the payload from the requirement, the clock
(`now = Math.floor(Date.now() / 1000)`) and a fresh nonce.
`requirement.scheme` falls back to `exact` when empty, JS treating the empty string as falsy. -/
def createPaymentSignature (cfg : X402ClientConfig) (req : PaymentRequirement)
    (now : ℤ) (nonce : String) : PaymentPayload :=
  { scheme := if req.scheme = "" then "exact" else req.scheme
    network := "eip155:" ++ (match cfg.network with
      | .base => "8453"
      | .baseSepolia => "84532")
    amount := req.maxAmountRequired
    resource := req.resource
    payTo := req.payTo
    payer := cfg.walletAddress
    validAfter := now
    validBefore := now + 60
    nonce := nonce }

/-- The USD amount validated against the cap in `makeRequest`
(src/x402-client.ts line 183): `parseFloat(requirement.maxAmountRequired) / 1e6`. -/
def amountUsd (req : PaymentRequirement) : ℚ :=
  req.maxAmountRequired / 1000000

/-- Result of a successful request: the parsed body, with the payment
proof attached when the `X-PAYMENT-RESPONSE` header is present and
decodes (a decode failure is swallowed: `payment` stays `none`). -/
structure ChatResult where
  body : String
  payment : Option PaymentProofData
deriving DecidableEq, Repr

/-- The `makeRequest` (src/x402-client.ts lines 161-233).

The network is modelled by the list of responses the successive `fetch`
calls return, consumed left to right.  `clock n`/`nonces n` give the
signing time and nonce of the `n`-th payment attempt (the source draws
them from `Date.now()` and the RNG).  Besides the result, the model
returns the list of payment payloads that were built and signed, in
order, so the theorems can count signer calls. -/
def makeRequest (cfg : X402ClientConfig) (clock : Nat → ℤ) (nonces : Nat → String) :
    List ServerResponse → Nat → Except X402Error ChatResult × List PaymentPayload
  | [], _ => (.error .noResponse, [])
  | r :: rest, retryCount =>
    if r.status = 402 then
      if 3 ≤ retryCount then
        (.error .paymentRetriesExhausted, [])
      else
        match r.paymentRequired with
        | none => (.error .missingPaymentHeader, [])
        | some hv =>
          match parsePaymentRequirement hv with
          | .error e => (.error e, [])
          | .ok requirement =>
            if cfg.maxPaymentUsd < amountUsd requirement then
              (.error (.paymentLimitExceeded (amountUsd requirement) cfg.maxPaymentUsd), [])
            else
              let payload :=
                createPaymentSignature cfg requirement (clock retryCount) (nonces retryCount)
              let next := makeRequest cfg clock nonces rest (retryCount + 1)
              (next.1, payload :: next.2)
    else if !responseOk r then
      (.error (.apiError r.status r.body), [])
    else
      (.ok { body := r.body, payment := r.paymentResponse.bind id }, [])

/-! ## Data model: payment ledger (src/payment-tracker.ts) -/

/-- The `PaymentRecord` (src/payment-tracker.ts lines 16-34).  `amount` is a
decimal USD string in the source, modelled by its parsed value; the
`tokens` object is flattened into the two counts. -/
structure PaymentRecord where
  id : String
  transactionHash : String
  timestamp : ℤ
  amount : ℚ
  model : String
  network : String
  tokensInput : Nat
  tokensOutput : Nat
deriving DecidableEq, Repr

/-- The `MAX_RECORDS` (src/payment-tracker.ts line 54). -/
def MAX_RECORDS : Nat := 1000

/-- JavaScript `array.slice(-n)`: the last `n` elements, except that
`slice(-0) = slice(0)` is the whole array. -/
def sliceLast (l : List α) (n : Nat) : List α :=
  if n = 0 then l else l.drop (l.length - n)

/-- The `saveHistory` (src/payment-tracker.ts lines 87-100) as a function
from the in-memory history to the persisted contents:
`history.slice(-MAX_RECORDS)`. -/
def saveHistory (history : List PaymentRecord) : List PaymentRecord :=
  sliceLast history MAX_RECORDS

/-- The `recordPayment` (src/payment-tracker.ts lines 116-127) as a state
transformer on the persisted store: load, push the new record (with its
freshly generated id already filled in), save. -/
def recordPayment (store : List PaymentRecord) (payment : PaymentRecord) :
    List PaymentRecord :=
  saveHistory (store ++ [payment])

/-- The `getPaymentHistory` (src/payment-tracker.ts lines 135-140):
`history.slice(-limit).reverse()`. -/
def getPaymentHistory (store : List PaymentRecord) (limit : Nat) :
    List PaymentRecord :=
  (sliceLast store limit).reverse

/-- The `PaymentSummary` (src/payment-tracker.ts lines 39-51), with the
`last24h` object flattened and amounts kept as exact values (the source
renders them with `toFixed(4)`). -/
structure PaymentSummary where
  totalSpent : ℚ
  totalPayments : Nat
  last24hCount : Nat
  last24hAmount : ℚ
  topModel : Option String
deriving DecidableEq, Repr

/-- The records counted as "last 24 hours" by `getPaymentSummary`
(src/payment-tracker.ts line 170): `history.filter(p => p.timestamp > dayAgo)`
with `dayAgo = now - 24*60*60*1000` (milliseconds). -/
def last24hRecords (history : List PaymentRecord) (now : ℤ) : List PaymentRecord :=
  history.filter fun p => decide (now - 24 * 60 * 60 * 1000 < p.timestamp)

/-- The model identifiers of `history` in order of first appearance
(the insertion order of the keys of `modelCounts`). -/
def modelKeys (history : List PaymentRecord) : List String :=
  (history.map (·.model)).eraseDups

/-- The `topModel` (src/payment-tracker.ts lines 177-181): the key of
`modelCounts` with the highest count; the V8 stable sort makes ties break
towards the key that first appeared earliest. -/
def topModel (history : List PaymentRecord) : Option String :=
  (modelKeys history).foldl
    (fun best k =>
      match best with
      | none => some k
      | some b =>
          if (history.countP (·.model = k)) > (history.countP (·.model = b)) then some k
          else some b)
    none

/-- The `getPaymentSummary` (src/payment-tracker.ts lines 158-192), with
`now = Date.now()` passed explicitly (milliseconds). -/
def getPaymentSummary (history : List PaymentRecord) (now : ℤ) : PaymentSummary :=
  let last24h := last24hRecords history now
  { totalSpent := (history.map (·.amount)).sum
    totalPayments := history.length
    last24hCount := last24h.length
    last24hAmount := (last24h.map (·.amount)).sum
    topModel := topModel history }

/-! ## Data model: multi-chain balance checking (src/balance.ts) -/

/-- The keys of the `CHAINS` record (src/balance.ts lines 11-30). -/
inductive ChainName where
  | ethereum
  | base
  | optimism
deriving DecidableEq, Repr

/-- One entry of `CHAINS`: display name, RPC URL, chain id, symbol. -/
structure ChainInfo where
  name : String
  rpc : String
  chainId : Nat
  symbol : String
deriving DecidableEq, Repr

/-- The `CHAINS` constant (src/balance.ts lines 11-30). -/
def CHAINS : ChainName → ChainInfo
  | .ethereum =>
    { name := "Ethereum", rpc := "https://eth.llamarpc.com", chainId := 1, symbol := "ETH" }
  | .base =>
    { name := "Base", rpc := "https://mainnet.base.org", chainId := 8453, symbol := "ETH" }
  | .optimism =>
    { name := "Optimism", rpc := "https://mainnet.optimism.io", chainId := 10, symbol := "ETH" }

/-- The record key of a chain (`ethereum`, `base` or `optimism`). -/
def ChainName.key : ChainName → String
  | .ethereum => "ethereum"
  | .base => "base"
  | .optimism => "optimism"

/-- Outcome of one `provider.getBalance` call raced against its timeout:
either a balance in wei, or a rejection (RPC error or the `Timeout`
rejection) with its message. -/
inductive QueryOutcome where
  | ok (wei : Nat)
  | err (msg : String)
deriving DecidableEq, Repr

/-- The `ChainBalance` (src/balance.ts lines 37-50).  `balance` is the
`formatEther` rendering; `balanceWei` is kept as a number (the source
stringifies the bigint). -/
structure ChainBalance where
  chain : String
  chainId : Nat
  balance : String
  balanceWei : Nat
  hasFunds : Bool
  error : Option String
deriving DecidableEq, Repr

/-- The `checkSingleChain` (src/balance.ts lines 83-122) as a function of
the outcome of the query; `fmt` is the `ethers.formatEther` collaborator. -/
def checkSingleChain (chainName : ChainName) (outcome : QueryOutcome)
    (fmt : Nat → String) : ChainBalance :=
  let chain := CHAINS chainName
  match outcome with
  | .ok wei =>
    { chain := chain.name
      chainId := chain.chainId
      balance := fmt wei
      balanceWei := wei
      hasFunds := decide (0 < wei)
      error := none }
  | .err msg =>
    { chain := chain.name
      chainId := chain.chainId
      balance := "0"
      balanceWei := 0
      hasFunds := false
      error := some msg }

/-- JS truthiness of the optional `error` string: `undefined` and the empty string
are falsy. -/
def errTruthy : Option String → Bool
  | none => false
  | some m => m ≠ ""

/-- The `BalanceResult` (src/balance.ts lines 55-66): `balances` is the
record keyed by chain name, in insertion (= requested) order;
`checkedAt` is the ISO timestamp string. -/
structure BalanceResult where
  address : String
  balances : List (String × ChainBalance)
  totalBalance : String
  hasFunds : Bool
  checkedAt : String
deriving DecidableEq, Repr

/-- The `totalWei` accumulation of `checkBalance` (src/balance.ts lines
161-170): add `balanceWei` exactly when `!result.error`. -/
def totalWeiOf (results : List ChainBalance) : Nat :=
  results.foldl (fun acc r => if errTruthy r.error then acc else acc + r.balanceWei) 0

/-- The `checkBalance` (src/balance.ts lines 140-179).  The fan-out of the
chain queries is modelled by the list `outcomes`, one outcome per
requested chain (each query independently resolved or failed);
`checkedAt` stands for `new Date().toISOString()`. -/
def checkBalance (address : String) (chainsToCheck : List ChainName)
    (outcomes : List QueryOutcome) (fmt : Nat → String) (checkedAt : String) :
    BalanceResult :=
  let results := List.zipWith (fun c o => checkSingleChain c o fmt) chainsToCheck outcomes
  let totalWei := totalWeiOf results
  { address := address
    balances := List.zipWith (fun c r => (c.key, r)) chainsToCheck results
    totalBalance := fmt totalWei
    hasFunds := decide (0 < totalWei)
    checkedAt := checkedAt }

/-- Failure kinds of `waitForFunding`: the timeout throw, plus the
distinguished fuel-exhaustion artifact of the loop model. -/
inductive FundingError where
  | fundingTimeout (maxWait : Nat)
  | outOfFuel
deriving DecidableEq, Repr

/-- The `while` loop of `waitForFunding` (src/balance.ts lines 220-235).

`i` is the poll counter, `t` the value `Date.now()` takes at the loop
condition of that iteration; a loop body advances the clock by the
duration of the `checkBalance` call (`pollDur i`) plus the `interval`
sleep.  `outcomes i` are the chain query outcomes of the `i`-th poll and
`iso i` its timestamp string.  Success is the inner `for` loop of the source:
return as soon as the sample of any chain has `balanceWei >= minWei`. -/
def waitForFundingLoop (address : String) (chains : List ChainName)
    (outcomes : Nat → List QueryOutcome) (pollDur : Nat → Nat)
    (fmt : Nat → String) (iso : Nat → String)
    (minWei interval maxWait startTime : Nat) :
    Nat → Nat → Nat → Except FundingError BalanceResult
  | 0, _, _ => .error .outOfFuel
  | fuel + 1, i, t =>
    if t - startTime < maxWait then
      let result := checkBalance address chains (outcomes i) fmt (iso i)
      if result.balances.any (fun cb => minWei ≤ cb.2.balanceWei) then
        .ok result
      else
        waitForFundingLoop address chains outcomes pollDur fmt iso
          minWei interval maxWait startTime fuel (i + 1) (t + pollDur i + interval)
    else
      .error (.fundingTimeout maxWait)

/-- The `waitForFunding` (src/balance.ts lines 197-238): run the poll loop
from `startTime = Date.now()`, poll counter 0. -/
def waitForFunding (address : String) (chains : List ChainName)
    (outcomes : Nat → List QueryOutcome) (pollDur : Nat → Nat)
    (fmt : Nat → String) (iso : Nat → String)
    (minWei interval maxWait startTime fuel : Nat) :
    Except FundingError BalanceResult :=
  waitForFundingLoop address chains outcomes pollDur fmt iso
    minWei interval maxWait startTime fuel 0 startTime

/-! ## Data model: USDC balance checking (src/usdc-balance.ts) -/

/-- The `USDCBalanceResult` (src/usdc-balance.ts lines 28-39). `balance` is
the `(Number(balanceRaw) / 1e6).toFixed(2)` rendering, supplied by the
`fmt` collaborator in the success case and the literal `0.00` in the
error case. -/
structure USDCBalanceResult where
  address : String
  balance : String
  balanceRaw : Nat
  hasMinimum : Bool
  network : Network
deriving DecidableEq, Repr

/-- The `checkUSDCBalance` (src/usdc-balance.ts lines 64-101) as a function
of the `readContract` outcome: on success, `hasMinimum` is
`balanceRaw >= 10000n`; any error is caught and collapsed to a zero
balance. -/
def checkUSDCBalance (address : String) (network : Network)
    (outcome : QueryOutcome) (fmt : Nat → String) : USDCBalanceResult :=
  match outcome with
  | .ok raw =>
    { address := address
      balance := fmt raw
      balanceRaw := raw
      hasMinimum := decide (10000 ≤ raw)
      network := network }
  | .err _ =>
    { address := address
      balance := "0.00"
      balanceRaw := 0
      hasMinimum := false
      network := network }

/-- The `while` loop of `waitForUSDCFunding` (src/usdc-balance.ts lines
131-146), with the same clock/fuel conventions as `waitForFundingLoop`.
When the deadline has passed, the source performs one more
`checkUSDCBalance` (consuming the next outcome) and returns its result
instead of throwing. -/
def waitForUSDCFundingLoop (address : String) (network : Network)
    (outcomes : Nat → QueryOutcome) (pollDur : Nat → Nat) (fmt : Nat → String)
    (minBalanceRaw pollInterval maxWait startTime : Nat) :
    Nat → Nat → Nat → Option USDCBalanceResult
  | 0, _, _ => none
  | fuel + 1, i, t =>
    if t - startTime < maxWait then
      let result := checkUSDCBalance address network (outcomes i) fmt
      if minBalanceRaw ≤ result.balanceRaw then
        some result
      else
        waitForUSDCFundingLoop address network outcomes pollDur fmt
          minBalanceRaw pollInterval maxWait startTime fuel (i + 1)
          (t + pollDur i + pollInterval)
    else
      some (checkUSDCBalance address network (outcomes i) fmt)

/-- The `waitForUSDCFunding` (src/usdc-balance.ts lines 110-147): run the
poll loop from `startTime = Date.now()`, poll counter 0.  `none` is the
fuel-exhaustion artifact only; the source never throws on the deadline. -/
def waitForUSDCFunding (address : String) (network : Network)
    (outcomes : Nat → QueryOutcome) (pollDur : Nat → Nat) (fmt : Nat → String)
    (minBalanceRaw pollInterval maxWait startTime fuel : Nat) :
    Option USDCBalanceResult :=
  waitForUSDCFundingLoop address network outcomes pollDur fmt
    minBalanceRaw pollInterval maxWait startTime fuel 0 startTime

/-! ## Step lemmas for `makeRequest` -/

/-- A 402 response with the retry budget already spent fails at once. -/
theorem makeRequest_cons_exhausted (cfg : X402ClientConfig) (clock : Nat → ℤ)
    (nonces : Nat → String) (r : ServerResponse) (rest : List ServerResponse)
    (rc : Nat) (h402 : r.status = 402) (hrc : 3 ≤ rc) :
    makeRequest cfg clock nonces (r :: rest) rc =
      (.error .paymentRetriesExhausted, []) := by
  simp [makeRequest, h402, hrc]

/-- A 402 response whose payment header is absent fails at once. -/
theorem makeRequest_cons_missing (cfg : X402ClientConfig) (clock : Nat → ℤ)
    (nonces : Nat → String) (r : ServerResponse) (rest : List ServerResponse)
    (rc : Nat) (h402 : r.status = 402) (hrc : rc < 3)
    (habs : r.paymentRequired = none) :
    makeRequest cfg clock nonces (r :: rest) rc =
      (.error .missingPaymentHeader, []) := by
  have h3 : ¬ 3 ≤ rc := by omega
  simp [makeRequest, h402, h3, habs]

/-- A 402 response whose payment header does not decode fails at once. -/
theorem makeRequest_cons_invalid (cfg : X402ClientConfig) (clock : Nat → ℤ)
    (nonces : Nat → String) (r : ServerResponse) (rest : List ServerResponse)
    (rc : Nat) (h402 : r.status = 402) (hrc : rc < 3)
    (hmal : r.paymentRequired = some .malformed) :
    makeRequest cfg clock nonces (r :: rest) rc =
      (.error .invalidPaymentHeader, []) := by
  have h3 : ¬ 3 ≤ rc := by omega
  simp [makeRequest, h402, h3, hmal, parsePaymentRequirement]

/-- A 402 response demanding more than the configured cap fails at once,
without building a payload. -/
theorem makeRequest_cons_limit (cfg : X402ClientConfig) (clock : Nat → ℤ)
    (nonces : Nat → String) (r : ServerResponse) (rest : List ServerResponse)
    (rc : Nat) (req : PaymentRequirement) (h402 : r.status = 402) (hrc : rc < 3)
    (hreq : r.paymentRequired = some (.wellFormed req))
    (hcap : cfg.maxPaymentUsd < amountUsd req) :
    makeRequest cfg clock nonces (r :: rest) rc =
      (.error (.paymentLimitExceeded (amountUsd req) cfg.maxPaymentUsd), []) := by
  have h3 : ¬ 3 ≤ rc := by omega
  simp [makeRequest, h402, h3, hreq, parsePaymentRequirement, hcap]

/-- A 402 response within the cap signs one payload and recurses on the
remaining responses with the retry counter bumped. -/
theorem makeRequest_cons_sign (cfg : X402ClientConfig) (clock : Nat → ℤ)
    (nonces : Nat → String) (r : ServerResponse) (rest : List ServerResponse)
    (rc : Nat) (req : PaymentRequirement) (h402 : r.status = 402) (hrc : rc < 3)
    (hreq : r.paymentRequired = some (.wellFormed req))
    (hcap : amountUsd req ≤ cfg.maxPaymentUsd) :
    makeRequest cfg clock nonces (r :: rest) rc =
      ((makeRequest cfg clock nonces rest (rc + 1)).1,
       createPaymentSignature cfg req (clock rc) (nonces rc) ::
         (makeRequest cfg clock nonces rest (rc + 1)).2) := by
  have h3 : ¬ 3 ≤ rc := by omega
  have hlt : ¬ cfg.maxPaymentUsd < amountUsd req := not_lt.mpr hcap
  simp [makeRequest, h402, h3, hreq, parsePaymentRequirement, hlt]

/-! ## Concrete values used by witnesses and counterexamples -/

/-- A configuration with the default cap `$0.10` on the `base` network. -/
def cfgEx : X402ClientConfig :=
  { network := .base
    maxPaymentUsd := 1 / 10
    apiBaseUrl := "https://api.flock.io/v1"
    walletAddress := "0x1111111111111111111111111111111111111111" }

/-- A requirement for `$0.05` (50000 units at 6 decimals), within the cap. -/
def reqSmall : PaymentRequirement :=
  { scheme := "exact"
    network := "base"
    maxAmountRequired := 50000
    resource := "/v1/chat/completions"
    payTo := "0x2222222222222222222222222222222222222222"
    requiredDecimals := 6 }

/-- A requirement whose token is declared with 18 decimals. -/
def reqDec18 : PaymentRequirement :=
  { scheme := "exact"
    network := "base"
    maxAmountRequired := 2000000
    resource := "/v1/chat/completions"
    payTo := "0x2222222222222222222222222222222222222222"
    requiredDecimals := 18 }

/-- A 402 response carrying `reqSmall` in its payment header. -/
def resp402Small : ServerResponse :=
  { status := 402
    paymentRequired := some (.wellFormed reqSmall)
    paymentResponse := none
    body := "" }

/-- A 402 response carrying `reqDec18` in its payment header. -/
def resp402Dec18 : ServerResponse :=
  { status := 402
    paymentRequired := some (.wellFormed reqDec18)
    paymentResponse := none
    body := "" }

/-- A deterministic signing clock for witnesses. -/
def wClock : Nat → ℤ := fun n => 1700000000 + n

/-- A deterministic nonce source for witnesses. -/
def wNonce : Nat → String := fun n => "0xnonce" ++ toString n

/-! ## C1: exactly 3 payment attempts before PaymentRetriesExhausted -/

/-- C1: on four consecutive payment-required responses (each with a
decodable requirement within the cap) the negotiator fails with
`PaymentRetriesExhausted`, and the payloads built and signed are exactly
the three of attempts 0, 1 and 2 — the fourth 402 never reaches the
signer, whatever responses follow it. -/
theorem makeRequest_three_attempts_then_exhausted
    (cfg : X402ClientConfig) (clock : Nat → ℤ) (nonces : Nat → String)
    (r0 r1 r2 r3 : ServerResponse) (rest : List ServerResponse)
    (req0 req1 req2 req3 : PaymentRequirement)
    (h0 : r0.status = 402) (hq0 : r0.paymentRequired = some (.wellFormed req0))
    (hc0 : amountUsd req0 ≤ cfg.maxPaymentUsd)
    (h1 : r1.status = 402) (hq1 : r1.paymentRequired = some (.wellFormed req1))
    (hc1 : amountUsd req1 ≤ cfg.maxPaymentUsd)
    (h2 : r2.status = 402) (hq2 : r2.paymentRequired = some (.wellFormed req2))
    (hc2 : amountUsd req2 ≤ cfg.maxPaymentUsd)
    (h3 : r3.status = 402) (hq3 : r3.paymentRequired = some (.wellFormed req3))
    (hc3 : amountUsd req3 ≤ cfg.maxPaymentUsd) :
    makeRequest cfg clock nonces (r0 :: r1 :: r2 :: r3 :: rest) 0 =
      (.error .paymentRetriesExhausted,
       [createPaymentSignature cfg req0 (clock 0) (nonces 0),
        createPaymentSignature cfg req1 (clock 1) (nonces 1),
        createPaymentSignature cfg req2 (clock 2) (nonces 2)]) := by
  rw [makeRequest_cons_sign cfg clock nonces r0 _ 0 req0 h0 (by omega) hq0 hc0,
    makeRequest_cons_sign cfg clock nonces r1 _ 1 req1 h1 (by omega) hq1 hc1,
    makeRequest_cons_sign cfg clock nonces r2 _ 2 req2 h2 (by omega) hq2 hc2,
    makeRequest_cons_exhausted cfg clock nonces r3 rest 3 h3 (by omega)]

/-- Witness for C1: four identical in-cap 402 responses. -/
theorem makeRequest_three_attempts_then_exhausted_witness :
    resp402Small.status = 402 ∧
    resp402Small.paymentRequired = some (.wellFormed reqSmall) ∧
    amountUsd reqSmall ≤ cfgEx.maxPaymentUsd ∧
    makeRequest cfgEx wClock wNonce
        [resp402Small, resp402Small, resp402Small, resp402Small] 0 =
      (.error .paymentRetriesExhausted,
       [createPaymentSignature cfgEx reqSmall (wClock 0) (wNonce 0),
        createPaymentSignature cfgEx reqSmall (wClock 1) (wNonce 1),
        createPaymentSignature cfgEx reqSmall (wClock 2) (wNonce 2)]) :=
  ⟨rfl, rfl, by norm_num [amountUsd, reqSmall, cfgEx],
    makeRequest_three_attempts_then_exhausted cfgEx wClock wNonce
      resp402Small resp402Small resp402Small resp402Small []
      reqSmall reqSmall reqSmall reqSmall
      rfl rfl (by norm_num [amountUsd, reqSmall, cfgEx])
      rfl rfl (by norm_num [amountUsd, reqSmall, cfgEx])
      rfl rfl (by norm_num [amountUsd, reqSmall, cfgEx])
      rfl rfl (by norm_num [amountUsd, reqSmall, cfgEx])⟩

/-! ## C2: the 60-second validity window invariant -/

/-- C2: every payload `createPaymentSignature` builds has
`validAfter = now` (the signing time in unix seconds) and
`validBefore = validAfter + 60`; consequently every payload signed
during any run of `makeRequest` — one per retry attempt — satisfies
`validBefore = validAfter + 60`. -/
theorem signedAuthorization_validity_window
    (cfg : X402ClientConfig) (clock : Nat → ℤ) (nonces : Nat → String) :
    (∀ (req : PaymentRequirement) (now : ℤ) (nonce : String),
      (createPaymentSignature cfg req now nonce).validAfter = now ∧
      (createPaymentSignature cfg req now nonce).validBefore =
        (createPaymentSignature cfg req now nonce).validAfter + 60) ∧
    (∀ (rs : List ServerResponse) (rc : Nat) (p : PaymentPayload),
      p ∈ (makeRequest cfg clock nonces rs rc).2 →
      p.validBefore = p.validAfter + 60) := by
  refine ⟨fun req now nonce => ⟨rfl, rfl⟩, fun rs => ?_⟩
  induction rs with
  | nil =>
    intro rc p hp
    simp [makeRequest] at hp
  | cons r rest ih =>
    intro rc p hp
    rw [makeRequest] at hp
    by_cases h402 : r.status = 402
    · simp only [h402, if_true, if_pos] at hp
      by_cases hrc : 3 ≤ rc
      · simp [hrc] at hp
      · simp only [hrc, if_false] at hp
        cases hpr : r.paymentRequired with
        | none => simp [hpr] at hp
        | some hv =>
          cases hv with
          | malformed => simp [hpr, parsePaymentRequirement] at hp
          | wellFormed req =>
            simp only [hpr, parsePaymentRequirement] at hp
            by_cases hcap : cfg.maxPaymentUsd < amountUsd req
            · simp [hcap] at hp
            · simp only [hcap, if_false, List.mem_cons] at hp
              rcases hp with hp | hp
              · subst hp; rfl
              · exact ih (rc + 1) p hp
    · by_cases hok : responseOk r
      · simp [h402, hok] at hp
      · simp [h402, hok] at hp

/-- Witness for C2: the payload signed on attempt 0 of a concrete run. -/
theorem signedAuthorization_validity_window_witness :
    (createPaymentSignature cfgEx reqSmall (wClock 0) (wNonce 0)).validAfter = wClock 0 ∧
    createPaymentSignature cfgEx reqSmall (wClock 0) (wNonce 0) ∈
      (makeRequest cfgEx wClock wNonce [resp402Small, resp402Small, resp402Small, resp402Small] 0).2 ∧
    (createPaymentSignature cfgEx reqSmall (wClock 0) (wNonce 0)).validBefore =
      (createPaymentSignature cfgEx reqSmall (wClock 0) (wNonce 0)).validAfter + 60 := by
  have hmem : createPaymentSignature cfgEx reqSmall (wClock 0) (wNonce 0) ∈
      (makeRequest cfgEx wClock wNonce [resp402Small, resp402Small, resp402Small, resp402Small] 0).2 := by
    rw [makeRequest_cons_sign cfgEx wClock wNonce resp402Small _ 0 reqSmall rfl (by omega) rfl
      (by norm_num [amountUsd, reqSmall, cfgEx])]
    exact List.mem_cons_self _ _
  exact ⟨((signedAuthorization_validity_window cfgEx wClock wNonce).1 reqSmall (wClock 0) (wNonce 0)).1,
    hmem,
    (signedAuthorization_validity_window cfgEx wClock wNonce).2
      [resp402Small, resp402Small, resp402Small, resp402Small] 0 _ hmem⟩

/-! ## C3: the payment cap gates signing -/

/-- C3: at any point of the negotiation with retry budget left, a
decodable requirement whose USD amount is within the cap proceeds to
signing (the signed payload is produced and the negotiation continues),
while an amount above the cap fails at once with
`PaymentLimitExceeded` and no payload is ever built or signed. -/
theorem cap_gates_signing
    (cfg : X402ClientConfig) (clock : Nat → ℤ) (nonces : Nat → String)
    (r : ServerResponse) (rest : List ServerResponse) (rc : Nat)
    (req : PaymentRequirement) (h402 : r.status = 402) (hrc : rc < 3)
    (hreq : r.paymentRequired = some (.wellFormed req)) :
    (amountUsd req ≤ cfg.maxPaymentUsd →
      makeRequest cfg clock nonces (r :: rest) rc =
        ((makeRequest cfg clock nonces rest (rc + 1)).1,
         createPaymentSignature cfg req (clock rc) (nonces rc) ::
           (makeRequest cfg clock nonces rest (rc + 1)).2)) ∧
    (cfg.maxPaymentUsd < amountUsd req →
      makeRequest cfg clock nonces (r :: rest) rc =
        (.error (.paymentLimitExceeded (amountUsd req) cfg.maxPaymentUsd), [])) :=
  ⟨fun hle => makeRequest_cons_sign cfg clock nonces r rest rc req h402 hrc hreq hle,
   fun hgt => makeRequest_cons_limit cfg clock nonces r rest rc req h402 hrc hreq hgt⟩

/-- Witness for C3: a $0.05 requirement against the $0.10 cap. -/
theorem cap_gates_signing_witness :
    resp402Small.status = 402 ∧ (0 : Nat) < 3 ∧
    resp402Small.paymentRequired = some (.wellFormed reqSmall) ∧
    (amountUsd reqSmall ≤ cfgEx.maxPaymentUsd →
      makeRequest cfgEx wClock wNonce [resp402Small] 0 =
        ((makeRequest cfgEx wClock wNonce [] 1).1,
         createPaymentSignature cfgEx reqSmall (wClock 0) (wNonce 0) ::
           (makeRequest cfgEx wClock wNonce [] 1).2)) ∧
    (cfgEx.maxPaymentUsd < amountUsd reqSmall →
      makeRequest cfgEx wClock wNonce [resp402Small] 0 =
        (.error (.paymentLimitExceeded (amountUsd reqSmall) cfgEx.maxPaymentUsd), [])) :=
  ⟨rfl, by omega, rfl,
    (cap_gates_signing cfgEx wClock wNonce resp402Small [] 0 reqSmall rfl (by omega) rfl).1,
    (cap_gates_signing cfgEx wClock wNonce resp402Small [] 0 reqSmall rfl (by omega) rfl).2⟩

/-! ## C4: the cap-checked amount ignores `requiredDecimals` -/

/-- Counterexample to C4: for a requirement declaring 18 token decimals
and `maxAmountRequired = 2000000`, the amount the code checks against
the cap is `2000000 / 10^6 = $2`, not
`maxAmountRequired / 10^requiredDecimals = $2·10⁻¹²`; with the default
`$0.10` cap the negotiation fails with `PaymentLimitExceeded` even
though the claimed formula is far below the cap, and the signer is never
called. -/
theorem amountUsd_ignores_decimals_cex :
    amountUsd reqDec18 ≠
      reqDec18.maxAmountRequired / 10 ^ reqDec18.requiredDecimals ∧
    reqDec18.maxAmountRequired / 10 ^ reqDec18.requiredDecimals ≤
      cfgEx.maxPaymentUsd ∧
    makeRequest cfgEx wClock wNonce [resp402Dec18] 0 =
      (.error (.paymentLimitExceeded (amountUsd reqDec18) cfgEx.maxPaymentUsd), []) := by
  refine ⟨by norm_num [amountUsd, reqDec18], by norm_num [reqDec18, cfgEx], ?_⟩
  exact makeRequest_cons_limit cfgEx wClock wNonce resp402Dec18 [] 0 reqDec18 rfl
    (by omega) rfl (by norm_num [amountUsd, reqDec18, cfgEx])

/-- C4 as amended: the USD amount checked against the cap is always
`maxAmountRequired / 10^6`; the `requiredDecimals` field of the requirement
has no influence on it. -/
theorem amountUsd_fixed_six_decimals (req : PaymentRequirement) (d : Nat) :
    amountUsd req = req.maxAmountRequired / 10 ^ 6 ∧
    amountUsd { req with requiredDecimals := d } = amountUsd req :=
  ⟨by norm_num [amountUsd], rfl⟩

/-! ## C5: header errors fail immediately and are not retried -/

/-- C5: on a payment-required response with retry budget left, an absent
payment-requirement header fails at once with `MissingPaymentHeader`,
and a present header that fails to decode fails at once with
`InvalidPaymentHeader` — in both cases no payload is signed and no
further request is made, whatever responses would follow. -/
theorem header_errors_fail_immediately
    (cfg : X402ClientConfig) (clock : Nat → ℤ) (nonces : Nat → String)
    (r : ServerResponse) (rest : List ServerResponse) (rc : Nat)
    (h402 : r.status = 402) (hrc : rc < 3) :
    (r.paymentRequired = none →
      makeRequest cfg clock nonces (r :: rest) rc =
        (.error .missingPaymentHeader, [])) ∧
    (∀ hv, r.paymentRequired = some hv →
      parsePaymentRequirement hv = .error .invalidPaymentHeader →
      makeRequest cfg clock nonces (r :: rest) rc =
        (.error .invalidPaymentHeader, [])) := by
  refine ⟨fun habs => makeRequest_cons_missing cfg clock nonces r rest rc h402 hrc habs, ?_⟩
  intro hv hsome hparse
  cases hv with
  | malformed =>
    exact makeRequest_cons_invalid cfg clock nonces r rest rc h402 hrc hsome
  | wellFormed req => simp [parsePaymentRequirement] at hparse

/-- A 402 response with no payment header. -/
def resp402NoHeader : ServerResponse :=
  { status := 402, paymentRequired := none, paymentResponse := none, body := "" }

/-- A 402 response whose payment header fails to decode. -/
def resp402BadHeader : ServerResponse :=
  { status := 402, paymentRequired := some .malformed, paymentResponse := none, body := "" }

/-- Witness for C5: both header failures on concrete responses, with a
success response queued behind them that is never reached. -/
theorem header_errors_fail_immediately_witness :
    resp402NoHeader.status = 402 ∧ (0 : Nat) < 3 ∧
    resp402NoHeader.paymentRequired = none ∧
    makeRequest cfgEx wClock wNonce [resp402NoHeader, resp402Small] 0 =
      (.error .missingPaymentHeader, []) ∧
    resp402BadHeader.paymentRequired = some .malformed ∧
    parsePaymentRequirement .malformed = .error .invalidPaymentHeader ∧
    makeRequest cfgEx wClock wNonce [resp402BadHeader, resp402Small] 0 =
      (.error .invalidPaymentHeader, []) :=
  ⟨rfl, by omega, rfl,
    (header_errors_fail_immediately cfgEx wClock wNonce resp402NoHeader [resp402Small] 0
      rfl (by omega)).1 rfl,
    rfl, rfl,
    (header_errors_fail_immediately cfgEx wClock wNonce resp402BadHeader [resp402Small] 0
      rfl (by omega)).2 .malformed rfl rfl⟩

/-! ## Ledger lemmas -/

/-- The `slice(-n)` of a list never has more than `n` elements (for `n ≠ 0`). -/
theorem sliceLast_length_le (l : List α) (n : Nat) (hn : n ≠ 0) :
    (sliceLast l n).length ≤ n := by
  simp only [sliceLast, if_neg hn, List.length_drop]
  omega

/-- The `slice(-n)` is the identity on lists of at most `n` elements. -/
theorem sliceLast_of_length_le (l : List α) (n : Nat) (h : l.length ≤ n) :
    sliceLast l n = l := by
  unfold sliceLast
  split
  · rfl
  · rw [Nat.sub_eq_zero_of_le h, List.drop_zero]

/-- Trimming to the last `n`, appending, and trimming again is the same
as appending and trimming once: the persisted window only ever depends
on the full insertion sequence. -/
theorem sliceLast_append_left (l ys : List α) (n : Nat) (hn : n ≠ 0) :
    sliceLast (sliceLast l n ++ ys) n = sliceLast (l ++ ys) n := by
  simp only [sliceLast, if_neg hn]
  rw [List.drop_append_eq_append_drop, List.drop_append_eq_append_drop, List.drop_drop]
  have h1 : l.length - n + ((List.drop (l.length - n) l ++ ys).length - n) =
      (l ++ ys).length - n := by
    simp only [List.length_append, List.length_drop]
    omega
  have h2 : (List.drop (l.length - n) l ++ ys).length - n -
        (List.drop (l.length - n) l).length =
      (l ++ ys).length - n - l.length := by
    simp only [List.length_append, List.length_drop]
    omega
  rw [h1, h2]

/-- The persisted store after `saveHistory` never exceeds `MAX_RECORDS`. -/
theorem saveHistory_length_le (l : List PaymentRecord) :
    (saveHistory l).length ≤ MAX_RECORDS :=
  sliceLast_length_le l MAX_RECORDS (by norm_num [MAX_RECORDS])

/-- Folding `recordPayment` over any insertion sequence leaves exactly
the sliding window of the `MAX_RECORDS` most recently inserted records. -/
theorem foldl_recordPayment (ps : List PaymentRecord) (s : List PaymentRecord)
    (hs : s.length ≤ MAX_RECORDS) :
    ps.foldl recordPayment s = sliceLast (s ++ ps) MAX_RECORDS := by
  induction ps generalizing s with
  | nil =>
    rw [List.foldl_nil, List.append_nil, sliceLast_of_length_le _ _ hs]
  | cons p ps ih =>
    rw [List.foldl_cons, ih (recordPayment s p) (saveHistory_length_le (s ++ [p]))]
    show sliceLast (sliceLast (s ++ [p]) MAX_RECORDS ++ ps) MAX_RECORDS =
      sliceLast (s ++ p :: ps) MAX_RECORDS
    rw [sliceLast_append_left _ _ _ (by norm_num [MAX_RECORDS])]
    simp

/-! ## C6: the ledger never exceeds its capacity, newest retained -/

/-- C6: starting from any persisted store within capacity, any sequence
of `recordPayment` calls leaves exactly the `MAX_RECORDS` most recently
inserted records (oldest silently dropped), so the store never exceeds
the capacity; in particular, recording `MAX_RECORDS + 5` entries into an
empty store and asking for `history(MAX_RECORDS)` returns exactly the
`MAX_RECORDS` most recent records, newest first. -/
theorem ledger_capacity_sliding_window (s ps : List PaymentRecord)
    (hs : s.length ≤ MAX_RECORDS) :
    ps.foldl recordPayment s = sliceLast (s ++ ps) MAX_RECORDS ∧
    (ps.foldl recordPayment s).length ≤ MAX_RECORDS ∧
    (s = [] → ps.length = MAX_RECORDS + 5 →
      getPaymentHistory (ps.foldl recordPayment s) MAX_RECORDS =
        (ps.drop 5).reverse) := by
  refine ⟨foldl_recordPayment ps s hs, ?_, ?_⟩
  · rw [foldl_recordPayment ps s hs]
    exact sliceLast_length_le _ _ (by norm_num [MAX_RECORDS])
  · intro hnil hlen
    subst hnil
    rw [foldl_recordPayment ps [] (by simp), List.nil_append]
    have hdrop : sliceLast ps MAX_RECORDS = ps.drop 5 := by
      have h5 : ps.length - MAX_RECORDS = 5 := by
        rw [hlen]; omega
      simp only [sliceLast, if_neg (by norm_num [MAX_RECORDS] : MAX_RECORDS ≠ 0), h5]
    rw [hdrop, getPaymentHistory,
      sliceLast_of_length_le _ _ (by rw [List.length_drop, hlen]; omega)]

/-- A concrete payment record for witnesses. -/
def recEx : PaymentRecord :=
  { id := "pay_x_000001"
    transactionHash := "0xabc"
    timestamp := 1700000000000
    amount := 1 / 100
    model := "deepseek-v3.2"
    network := "base"
    tokensInput := 100
    tokensOutput := 200 }

/-- Witness for C6: 1005 records into an empty store. -/
theorem ledger_capacity_sliding_window_witness :
    ([] : List PaymentRecord).length ≤ MAX_RECORDS ∧
    (List.replicate (MAX_RECORDS + 5) recEx).length = MAX_RECORDS + 5 ∧
    getPaymentHistory
        ((List.replicate (MAX_RECORDS + 5) recEx).foldl recordPayment [])
        MAX_RECORDS =
      ((List.replicate (MAX_RECORDS + 5) recEx).drop 5).reverse :=
  ⟨by simp, by simp,
    (ledger_capacity_sliding_window [] (List.replicate (MAX_RECORDS + 5) recEx)
      (by simp)).2.2 rfl (by simp)⟩

/-! ## C7: the "last 24h" window of the summary -/

/-- A concrete value of `Date.now()` for the C7 counterexample. -/
def TNOW : ℤ := 1700000000000

/-- A record timestamped exactly 24 hours before `TNOW`. -/
def recBoundary : PaymentRecord :=
  { id := "pay_x_000002"
    transactionHash := "0xdef"
    timestamp := TNOW - 24 * 60 * 60 * 1000
    amount := 2 / 100
    model := "deepseek-v3.2"
    network := "base"
    tokensInput := 10
    tokensOutput := 20 }

/-- A record timestamped one second before `TNOW`. -/
def recRecent : PaymentRecord :=
  { id := "pay_x_000003"
    transactionHash := "0x123"
    timestamp := TNOW - 1000
    amount := 3 / 100
    model := "qwen3-30b-coding"
    network := "base"
    tokensInput := 30
    tokensOutput := 40 }

/-- Counterexample to C7: a record timestamped exactly `now - 24h` lies
in the claimed half-open window `[now - 24h, now)` yet `summary()` does
not count it — the filter is the strict `p.timestamp > now - 24h`
(src/payment-tracker.ts line 170), so the lower boundary is excluded. -/
theorem last24h_boundary_excluded_cex :
    TNOW - 24 * 60 * 60 * 1000 ≤ recBoundary.timestamp ∧
    recBoundary.timestamp < TNOW ∧
    (getPaymentSummary [recBoundary] TNOW).last24hCount = 0 ∧
    (getPaymentSummary [recBoundary] TNOW).last24hAmount = 0 := by
  refine ⟨le_refl _, by norm_num [recBoundary, TNOW], ?_, ?_⟩ <;>
    simp [getPaymentSummary, last24hRecords, recBoundary]

/-- C7 as amended: the `last24h` of `summary()` counts and sums exactly the
records whose timestamp is strictly greater than `now - 24h` (an open
lower bound, no upper bound): a record at exactly `now - 24h`, like
every earlier one, is excluded. -/
theorem last24h_strict_lower_bound (history : List PaymentRecord) (now : ℤ) :
    (∀ r ∈ history,
      (r ∈ last24hRecords history now ↔ now - 24 * 60 * 60 * 1000 < r.timestamp)) ∧
    (∀ r ∈ history, r.timestamp ≤ now - 24 * 60 * 60 * 1000 →
      r ∉ last24hRecords history now) ∧
    (getPaymentSummary history now).last24hCount = (last24hRecords history now).length ∧
    (getPaymentSummary history now).last24hAmount =
      ((last24hRecords history now).map (·.amount)).sum := by
  refine ⟨?_, ?_, rfl, rfl⟩
  · intro r hr
    simp [last24hRecords, List.mem_filter, hr]
  · intro r hr hle hmem
    simp only [last24hRecords, List.mem_filter, decide_eq_true_eq] at hmem
    omega

/-- Witness for the amended C7 theorem: the boundary record is excluded
and the recent record included on a concrete two-record ledger. -/
theorem last24h_strict_lower_bound_witness :
    recBoundary ∈ [recBoundary, recRecent] ∧
    recRecent ∈ [recBoundary, recRecent] ∧
    recBoundary.timestamp ≤ TNOW - 24 * 60 * 60 * 1000 ∧
    recBoundary ∉ last24hRecords [recBoundary, recRecent] TNOW ∧
    (recRecent ∈ last24hRecords [recBoundary, recRecent] TNOW ↔
      TNOW - 24 * 60 * 60 * 1000 < recRecent.timestamp) :=
  ⟨by simp, by simp, le_refl _,
    (last24h_strict_lower_bound [recBoundary, recRecent] TNOW).2.1 recBoundary
      (by simp) (le_refl _),
    (last24h_strict_lower_bound [recBoundary, recRecent] TNOW).1 recRecent (by simp)⟩

/-! ## Funding-loop lemmas -/

/-- If every chain sample of every poll is below the threshold, the
poll loop can never return successfully, whatever the fuel. -/
theorem waitForFundingLoop_no_success (address : String) (chains : List ChainName)
    (outcomes : Nat → List QueryOutcome) (pollDur : Nat → Nat)
    (fmt : Nat → String) (iso : Nat → String)
    (minWei interval maxWait startTime : Nat)
    (hbelow : ∀ i cb, cb ∈ (checkBalance address chains (outcomes i) fmt (iso i)).balances →
      cb.2.balanceWei < minWei) :
    ∀ fuel i t r, waitForFundingLoop address chains outcomes pollDur fmt iso
      minWei interval maxWait startTime fuel i t ≠ .ok r := by
  intro fuel
  induction fuel with
  | zero => intro i t r h; simp [waitForFundingLoop] at h
  | succ fuel ih =>
    intro i t r h
    rw [waitForFundingLoop] at h
    by_cases hcond : t - startTime < maxWait
    · simp only [hcond, if_true] at h
      have hany : ((checkBalance address chains (outcomes i) fmt (iso i)).balances.any
          (fun cb => minWei ≤ cb.2.balanceWei)) = false := by
        rw [List.any_eq_false]
        intro cb hcb
        simpa using Nat.not_le.mpr (hbelow i cb hcb)
      rw [hany] at h
      simp only [Bool.false_eq_true, if_false] at h
      exact ih (i + 1) (t + pollDur i + interval) r h
    · simp [hcond] at h

/-- With a positive poll interval and no poll ever reaching the
threshold, the loop hits the deadline once the fuel covers the remaining
wait, and fails with the timeout error. -/
theorem waitForFundingLoop_timeout (address : String) (chains : List ChainName)
    (outcomes : Nat → List QueryOutcome) (pollDur : Nat → Nat)
    (fmt : Nat → String) (iso : Nat → String)
    (minWei interval maxWait startTime : Nat) (hint : 1 ≤ interval)
    (hbelow : ∀ i cb, cb ∈ (checkBalance address chains (outcomes i) fmt (iso i)).balances →
      cb.2.balanceWei < minWei) :
    ∀ fuel i t, startTime ≤ t → maxWait - (t - startTime) < fuel →
      waitForFundingLoop address chains outcomes pollDur fmt iso
        minWei interval maxWait startTime fuel i t =
        .error (.fundingTimeout maxWait) := by
  intro fuel
  induction fuel with
  | zero => intro i t hst hfuel; omega
  | succ fuel ih =>
    intro i t hst hfuel
    rw [waitForFundingLoop]
    by_cases hcond : t - startTime < maxWait
    · simp only [hcond, if_true]
      have hany : ((checkBalance address chains (outcomes i) fmt (iso i)).balances.any
          (fun cb => minWei ≤ cb.2.balanceWei)) = false := by
        rw [List.any_eq_false]
        intro cb hcb
        simpa using Nat.not_le.mpr (hbelow i cb hcb)
      rw [hany]
      simp only [Bool.false_eq_true, if_false]
      exact ih (i + 1) (t + pollDur i + interval) (by omega) (by omega)
    · simp [hcond]

/-! ## C8: waitForFunding times out when never funded -/

/-- C8: if every poll reports every chain balance strictly below the
threshold, `waitForFunding` never returns a successful result — for any
fuel — and, the poll interval being positive, it fails with
`FundingTimeout` as soon as the wall clock passes `startTime + maxWait`
(any fuel beyond `maxWait` suffices, the clock advancing by at least the
interval per iteration). -/
theorem waitForFunding_timeout_when_unfunded (address : String)
    (chains : List ChainName) (outcomes : Nat → List QueryOutcome)
    (pollDur : Nat → Nat) (fmt : Nat → String) (iso : Nat → String)
    (minWei interval maxWait startTime : Nat) (hint : 1 ≤ interval)
    (hbelow : ∀ i cb, cb ∈ (checkBalance address chains (outcomes i) fmt (iso i)).balances →
      cb.2.balanceWei < minWei) :
    (∀ fuel r, waitForFunding address chains outcomes pollDur fmt iso
      minWei interval maxWait startTime fuel ≠ .ok r) ∧
    (∀ fuel, maxWait + 1 ≤ fuel →
      waitForFunding address chains outcomes pollDur fmt iso
        minWei interval maxWait startTime fuel =
        .error (.fundingTimeout maxWait)) := by
  constructor
  · intro fuel r
    exact waitForFundingLoop_no_success address chains outcomes pollDur fmt iso
      minWei interval maxWait startTime hbelow fuel 0 startTime r
  · intro fuel hfuel
    exact waitForFundingLoop_timeout address chains outcomes pollDur fmt iso
      minWei interval maxWait startTime hint hbelow fuel 0 startTime
      (le_refl _) (by omega)

/-- Per-poll chain outcomes for the C8 witness: one chain errors, one
answers with a zero balance, on every poll. -/
def wOutcomes : Nat → List QueryOutcome := fun _ => [.err "Timeout", .ok 0]

/-- Poll durations for the witnesses. -/
def wPollDur : Nat → Nat := fun _ => 2

/-- A stand-in for `ethers.formatEther` in the witnesses. -/
def wFmt : Nat → String := fun wei => toString wei

/-- A stand-in for `new Date().toISOString()` in the witnesses. -/
def wIso : Nat → String := fun _ => "2026-01-01T00:00:00.000Z"

/-- Witness for C8: two chains that never report 3 wei within a 12 ms
deadline, interval 5 ms. -/
theorem waitForFunding_timeout_when_unfunded_witness :
    1 ≤ 5 ∧
    (∀ i cb, cb ∈ (checkBalance "0xaddr" [ChainName.ethereum, ChainName.base]
        (wOutcomes i) wFmt (wIso i)).balances → cb.2.balanceWei < 3) ∧
    waitForFunding "0xaddr" [ChainName.ethereum, ChainName.base] wOutcomes wPollDur
        wFmt wIso 3 5 12 1000 13 = .error (.fundingTimeout 12) := by
  have hbelow : ∀ i cb, cb ∈ (checkBalance "0xaddr" [ChainName.ethereum, ChainName.base]
      (wOutcomes i) wFmt (wIso i)).balances → cb.2.balanceWei < 3 := by
    intro i cb hcb
    simp only [checkBalance, wOutcomes, List.zipWith, List.mem_cons,
      List.not_mem_nil, or_false] at hcb
    rcases hcb with h | h <;> subst h <;> simp [checkSingleChain]
  exact ⟨by omega, hbelow,
    (waitForFunding_timeout_when_unfunded "0xaddr" [ChainName.ethereum, ChainName.base]
      wOutcomes wPollDur wFmt wIso 3 5 12 1000 (by omega) hbelow).2 13 (by omega)⟩

/-! ## Aggregation lemmas for checkBalance -/

/-- The total wei reported by the error-free outcomes of a poll. -/
def sumOkWei : List QueryOutcome → Nat
  | [] => 0
  | .ok wei :: rest => wei + sumOkWei rest
  | .err _ :: rest => sumOkWei rest

/-- The `totalWei` accumulator distributes over its starting value. -/
theorem totalWeiOf_foldl_acc (l : List ChainBalance) (a : Nat) :
    l.foldl (fun acc r => if errTruthy r.error then acc else acc + r.balanceWei) a =
      a + l.foldl (fun acc r => if errTruthy r.error then acc else acc + r.balanceWei) 0 := by
  induction l generalizing a with
  | nil => simp
  | cons r rest ih =>
    rw [List.foldl_cons, List.foldl_cons, ih, ih (if errTruthy r.error then 0 else 0 + r.balanceWei)]
    split <;> omega

/-- The `totalWei` of a cons. -/
theorem totalWeiOf_cons (r : ChainBalance) (rest : List ChainBalance) :
    totalWeiOf (r :: rest) =
      (if errTruthy r.error then 0 else r.balanceWei) + totalWeiOf rest := by
  rw [totalWeiOf, List.foldl_cons, totalWeiOf_foldl_acc, totalWeiOf]
  split <;> omega

/-- The total the `checkBalance` accumulation computes is exactly the
sum of the balances of the chains that answered without error. -/
theorem totalWeiOf_zipWith (fmt : Nat → String) :
    ∀ (chains : List ChainName) (outcomes : List QueryOutcome),
      outcomes.length = chains.length →
      totalWeiOf (List.zipWith (fun c o => checkSingleChain c o fmt) chains outcomes) =
        sumOkWei outcomes
  | [], [], _ => rfl
  | c :: chains, o :: outcomes, h => by
    rw [List.zipWith_cons_cons, totalWeiOf_cons,
      totalWeiOf_zipWith fmt chains outcomes (by simpa using h)]
    cases o with
    | ok wei => simp [checkSingleChain, errTruthy, sumOkWei]
    | err msg =>
      simp only [checkSingleChain, errTruthy, sumOkWei]
      split <;> omega

/-- Pointwise description of `zipWith` through optional indexing. -/
theorem getElem?_zipWith_eq {α β γ : Type} (f : α → β → γ) :
    ∀ (as : List α) (bs : List β) (k : Nat) (a : α) (b : β),
      as[k]? = some a → bs[k]? = some b →
      (List.zipWith f as bs)[k]? = some (f a b)
  | _ :: _, _ :: _, 0, _, _, ha, hb => by
    simp only [List.getElem?_cons_zero, Option.some.injEq] at ha hb
    simp [List.zipWith_cons_cons, ha, hb]
  | _ :: as, _ :: bs, k + 1, a, b, ha, hb => by
    simp only [List.getElem?_cons_succ] at ha hb
    simpa [List.zipWith_cons_cons] using getElem?_zipWith_eq f as bs k a b ha hb

/-! ## C9: per-chain failures are isolated and excluded from aggregates -/

/-- C9: for any set of requested chains, every chain gets a sample
(`balances` has one entry per requested chain), the `k`-th sample
depends only on the outcome of the `k`-th chain, a chain whose query
errors or times out yields a sample with `error` set, `hasFunds = false`
and a zero balance, and the aggregate total and has-funds flag are
computed from the error-free chains alone. -/
theorem checkBalance_isolates_chain_errors (address : String) (fmt : Nat → String)
    (checkedAt : String) (chains : List ChainName) (outcomes : List QueryOutcome)
    (hlen : outcomes.length = chains.length) :
    (checkBalance address chains outcomes fmt checkedAt).balances.length =
      chains.length ∧
    (∀ (k : Nat) (c : ChainName) (o : QueryOutcome),
      chains[k]? = some c → outcomes[k]? = some o →
      (checkBalance address chains outcomes fmt checkedAt).balances[k]? =
        some (c.key, checkSingleChain c o fmt)) ∧
    (∀ (k : Nat) (c : ChainName) (msg : String),
      chains[k]? = some c → outcomes[k]? = some (QueryOutcome.err msg) →
      (checkBalance address chains outcomes fmt checkedAt).balances[k]? =
        some (c.key,
          { chain := (CHAINS c).name
            chainId := (CHAINS c).chainId
            balance := "0"
            balanceWei := 0
            hasFunds := false
            error := some msg })) ∧
    (checkBalance address chains outcomes fmt checkedAt).totalBalance =
      fmt (sumOkWei outcomes) ∧
    (checkBalance address chains outcomes fmt checkedAt).hasFunds =
      decide (0 < sumOkWei outcomes) := by
  refine ⟨?_, ?_, ?_, ?_, ?_⟩
  · simp [checkBalance, List.length_zipWith, hlen]
  · intro k c o hc ho
    have hres : (List.zipWith (fun c o => checkSingleChain c o fmt) chains outcomes)[k]? =
        some (checkSingleChain c o fmt) :=
      getElem?_zipWith_eq (fun c o => checkSingleChain c o fmt) chains outcomes k c o hc ho
    exact getElem?_zipWith_eq (fun c r => (c.key, r)) chains _ k c
      (checkSingleChain c o fmt) hc hres
  · intro k c msg hc ho
    have hres : (List.zipWith (fun c o => checkSingleChain c o fmt) chains outcomes)[k]? =
        some (checkSingleChain c (.err msg) fmt) :=
      getElem?_zipWith_eq (fun c o => checkSingleChain c o fmt) chains outcomes k c
        (.err msg) hc ho
    exact getElem?_zipWith_eq (fun c r => (c.key, r)) chains _ k c
      (checkSingleChain c (.err msg) fmt) hc hres
  · show fmt (totalWeiOf _) = fmt (sumOkWei outcomes)
    rw [totalWeiOf_zipWith fmt chains outcomes hlen]
  · show decide (0 < totalWeiOf _) = decide (0 < sumOkWei outcomes)
    rw [totalWeiOf_zipWith fmt chains outcomes hlen]

/-- Witness for C9: three chains, the middle one timing out. -/
theorem checkBalance_isolates_chain_errors_witness :
    ([QueryOutcome.ok 7, QueryOutcome.err "Timeout", QueryOutcome.ok 5] : List QueryOutcome).length =
      ([ChainName.ethereum, ChainName.base, ChainName.optimism] : List ChainName).length ∧
    (checkBalance "0xaddr" [ChainName.ethereum, ChainName.base, ChainName.optimism]
        [QueryOutcome.ok 7, QueryOutcome.err "Timeout", QueryOutcome.ok 5]
        wFmt "2026-01-01T00:00:00.000Z").balances[1]? =
      some (ChainName.base.key,
        { chain := (CHAINS ChainName.base).name
          chainId := (CHAINS ChainName.base).chainId
          balance := "0"
          balanceWei := 0
          hasFunds := false
          error := some "Timeout" }) ∧
    (checkBalance "0xaddr" [ChainName.ethereum, ChainName.base, ChainName.optimism]
        [QueryOutcome.ok 7, QueryOutcome.err "Timeout", QueryOutcome.ok 5]
        wFmt "2026-01-01T00:00:00.000Z").totalBalance =
      wFmt (sumOkWei [QueryOutcome.ok 7, QueryOutcome.err "Timeout", QueryOutcome.ok 5]) :=
  ⟨rfl,
    (checkBalance_isolates_chain_errors "0xaddr" wFmt "2026-01-01T00:00:00.000Z"
      [ChainName.ethereum, ChainName.base, ChainName.optimism]
      [QueryOutcome.ok 7, QueryOutcome.err "Timeout", QueryOutcome.ok 5]
      rfl).2.2.1 1 ChainName.base "Timeout" rfl rfl,
    (checkBalance_isolates_chain_errors "0xaddr" wFmt "2026-01-01T00:00:00.000Z"
      [ChainName.ethereum, ChainName.base, ChainName.optimism]
      [QueryOutcome.ok 7, QueryOutcome.err "Timeout", QueryOutcome.ok 5]
      rfl).2.2.2.1⟩

/-! ## C10: waitForUSDCFunding is total on deadline expiry -/

/-- If no poll ever reaches the threshold, the USDC wait loop reaches
the deadline and returns the result of one final balance check (it never
throws), once the fuel covers the remaining wait. -/
theorem waitForUSDCFundingLoop_returns_final_check (address : String)
    (network : Network) (outcomes : Nat → QueryOutcome) (pollDur : Nat → Nat)
    (fmt : Nat → String) (minBalanceRaw pollInterval maxWait startTime : Nat)
    (hint : 1 ≤ pollInterval)
    (hbelow : ∀ i, (checkUSDCBalance address network (outcomes i) fmt).balanceRaw <
      minBalanceRaw) :
    ∀ fuel i t, startTime ≤ t → maxWait - (t - startTime) < fuel →
      ∃ j, waitForUSDCFundingLoop address network outcomes pollDur fmt
        minBalanceRaw pollInterval maxWait startTime fuel i t =
        some (checkUSDCBalance address network (outcomes j) fmt) := by
  intro fuel
  induction fuel with
  | zero => intro i t hst hfuel; omega
  | succ fuel ih =>
    intro i t hst hfuel
    rw [waitForUSDCFundingLoop]
    by_cases hcond : t - startTime < maxWait
    · simp only [hcond, if_true]
      have hlt : ¬ minBalanceRaw ≤ (checkUSDCBalance address network (outcomes i) fmt).balanceRaw :=
        Nat.not_le.mpr (hbelow i)
      simp only [hlt, if_false]
      exact ih (i + 1) (t + pollDur i + pollInterval) (by omega) (by omega)
    · exact ⟨i, by simp [hcond]⟩

/-- C10: with a positive poll interval, if every balance check stays
strictly below the minimum, `waitForUSDCFunding` does not raise on
deadline expiry: it returns the result of a final balance check (so the
operation is total — any fuel beyond `maxWait` yields a result, never
the fuel-exhaustion artifact, and never an exception, unlike
`waitForFunding`).  Moreover a read error inside `checkUSDCBalance`
collapses to the zero-balance result rather than propagating. -/
theorem waitForUSDCFunding_total_on_timeout (address : String) (network : Network)
    (outcomes : Nat → QueryOutcome) (pollDur : Nat → Nat) (fmt : Nat → String)
    (minBalanceRaw pollInterval maxWait startTime : Nat) (hint : 1 ≤ pollInterval)
    (hbelow : ∀ i, (checkUSDCBalance address network (outcomes i) fmt).balanceRaw <
      minBalanceRaw) :
    (∀ fuel, maxWait + 1 ≤ fuel →
      ∃ j, waitForUSDCFunding address network outcomes pollDur fmt
          minBalanceRaw pollInterval maxWait startTime fuel =
        some (checkUSDCBalance address network (outcomes j) fmt) ∧
        (checkUSDCBalance address network (outcomes j) fmt).balanceRaw <
          minBalanceRaw) ∧
    (∀ msg, checkUSDCBalance address network (.err msg) fmt =
      { address := address
        balance := "0.00"
        balanceRaw := 0
        hasMinimum := false
        network := network }) := by
  refine ⟨?_, fun msg => rfl⟩
  intro fuel hfuel
  obtain ⟨j, hj⟩ := waitForUSDCFundingLoop_returns_final_check address network outcomes
    pollDur fmt minBalanceRaw pollInterval maxWait startTime hint hbelow fuel 0 startTime
    (le_refl _) (by omega)
  exact ⟨j, hj, hbelow j⟩

/-- Per-poll outcomes for the C10 witness: the RPC always errors. -/
def wUsdcOutcomes : Nat → QueryOutcome := fun _ => .err "rpc unreachable"

/-- Witness for C10: a wallet that never reaches the 1-cent minimum
(10000 raw units) within a 12 ms deadline, poll interval 5 ms. -/
theorem waitForUSDCFunding_total_on_timeout_witness :
    1 ≤ 5 ∧
    (∀ i, (checkUSDCBalance "0xaddr" Network.base (wUsdcOutcomes i) wFmt).balanceRaw < 10000) ∧
    (∃ j, waitForUSDCFunding "0xaddr" Network.base wUsdcOutcomes wPollDur wFmt
        10000 5 12 1000 13 =
      some (checkUSDCBalance "0xaddr" Network.base (wUsdcOutcomes j) wFmt) ∧
      (checkUSDCBalance "0xaddr" Network.base (wUsdcOutcomes j) wFmt).balanceRaw < 10000) := by
  have hbelow : ∀ i, (checkUSDCBalance "0xaddr" Network.base (wUsdcOutcomes i) wFmt).balanceRaw <
      10000 := by
    intro i
    simp [checkUSDCBalance, wUsdcOutcomes]
  exact ⟨by omega, hbelow,
    (waitForUSDCFunding_total_on_timeout "0xaddr" Network.base wUsdcOutcomes wPollDur wFmt
      10000 5 12 1000 (by omega) hbelow).1 13 (by omega)⟩

end FlockIn
